import Mathlib

/-!
Shallow embedding of `src/pkg/dex/adx_matching_engine.cpp` (namespace `adx`),
the ADX matching engine for perishable ad inventory.

Modelling conventions:

* `Price` (`int64_t`) is modelled as `Int`, `Quantity`/`SlotID`/`OrderID`
  (`uint64_t`) as `Nat`.
* `uint64_t` arithmetic wraps modulo `2^64` in C++; we model it explicitly
  with `u64add`, `u64sub`, `u64div?`.  Conversions between `int64_t` and
  `uint64_t` (which C++ performs by the usual arithmetic conversions) are
  modelled by `wrap64` (to unsigned) and `asI64` (to signed, two's
  complement).  Plain `int64_t` additions/subtractions/divisions are kept
  exact over `Int`; every theorem below evaluates them only inside the
  `int64_t` range, where exact and machine semantics coincide.  Divisions
  whose C++ counterpart is undefined behaviour (zero divisor) make the
  operation return `none`.
* `std::chrono` time points are modelled as integer tick counts (`Int`).
  The source only compares time points, subtracts them, and feeds the
  resulting duration counts into integer arithmetic, so one tick stands for
  one unit of the relevant clock.
* `std::unordered_map` is modelled as an association list with distinct
  keys; `mgetD`/`mset` together model `operator[]`, whose read on a missing
  key value-initialises (zero-initialises) a fresh entry.
* `std::sort`/`thrust::sort` take a strict comparator and leave the order of
  equivalent elements unspecified; we model them by the deterministic stable
  insertion sort `sortBy` over the corresponding non-strict comparator,
  a legitimate refinement of the unspecified behaviour.
* The CUDA plumbing (`cudaSetDevice`, device vectors), wall-clock metrics
  (`processing_time`, `avg_match_latency`) and the `std::atomic` wrappers
  carry no matching-engine semantics and are omitted; counters are plain
  naturals.
-/

/-- Modulus of `uint64_t` arithmetic. -/
def U64 : Nat := 18446744073709551616

/-- Conversion of a signed value to `uint64_t` (C++ conversion is reduction
modulo `2^64`). -/
def wrap64 (x : Int) : Nat := (x % (U64 : Int)).toNat

/-- Conversion of a `uint64_t` value to `int64_t` (two's complement
reinterpretation, what every mainstream implementation does). -/
def asI64 (n : Nat) : Int :=
  if n % U64 < 2 ^ 63 then ((n % U64 : Nat) : Int) else ((n % U64 : Nat) : Int) - (U64 : Int)

/-- Wrapping `uint64_t` addition. -/
def u64add (a b : Nat) : Nat := (a % U64 + b % U64) % U64

/-- Wrapping `uint64_t` subtraction. -/
def u64sub (a b : Nat) : Nat := (a % U64 + U64 - b % U64) % U64

/-- Unsigned `uint64_t` division; `none` models the undefined behaviour of a
zero divisor. -/
def u64div? (a b : Nat) : Option Nat :=
  if b % U64 = 0 then none else some (a % U64 / (b % U64))

/-- Ad slot record (`struct AdSlot`). -/
structure AdSlot where
  slot_id : Nat
  publisher : String
  placement : String
  targeting_hash : Nat
  start_time : Int
  end_time : Int
  max_impressions : Nat
  delivered : Nat
  floor_cpm : Int
  min_viewability : Nat
  active : Bool
deriving DecidableEq

/-- Time-decay pricing (`AdSlot::getCurrentPrice`); `now` is the value of
`steady_clock::now()`.  C++ `int64_t` division truncates toward zero
(`Int.tdiv`). -/
def AdSlot.getCurrentPrice (s : AdSlot) (now : Int) : Int :=
  if now > s.end_time ∨ s.active = false then 0
  else if now < s.start_time then s.floor_cpm
  else
    let time_remaining := s.end_time - now
    let total_window := s.end_time - s.start_time
    if total_window ≤ 0 then s.floor_cpm
    else
      let premium := Int.tdiv s.floor_cpm 2
      s.floor_cpm + Int.tdiv (premium * time_remaining) total_window

/-- Remaining supply (`AdSlot::remainingSupply`). -/
def AdSlot.remainingSupply (s : AdSlot) : Nat :=
  if s.max_impressions > s.delivered then s.max_impressions - s.delivered else 0

/-- Order mechanisms (`enum class OrderType`). -/
inductive OrderType where
  | LIMIT
  | MARKET
  | COMMIT_REVEAL
  | AMM_SWAP
  | FLASH_COVER
deriving DecidableEq

/-- Order record (`struct Order`). -/
structure Order where
  order_id : Nat
  trader : String
  slot_id : Nat
  type : OrderType
  is_buy : Bool
  limit_price : Int
  quantity : Nat
  created : Int
  expires : Int
  targeting_hash : Nat
  commit_hash : String
  revealed : Bool
  revealed_price : Int
deriving DecidableEq

/-- Price-time priority key (`Order::priority`):
`(uint64_t(limit_price) << 32) | created_count`. -/
def Order.priority (o : Order) : Nat :=
  (wrap64 o.limit_price * 2 ^ 32 % U64) ||| wrap64 o.created

/-- AdMM pool record (`struct AdMM_Pool`). -/
structure AdMM_Pool where
  slot_id : Nat
  reserve_ausd : Int
  reserve_supply : Nat
  last_price : Int
deriving DecidableEq

/-- Pool produced by `unordered_map::operator[]` on a missing key
(value-initialisation zeroes every member). -/
def AdMM_Pool.valueInit : AdMM_Pool := ⟨0, 0, 0, 0⟩

/-- Constant-product quote (`AdMM_Pool::getSwapPrice`).  `k` is computed as
`Price k = reserve_ausd * reserve_supply`, an `int64_t * uint64_t` product
performed in `uint64_t` and stored back into a signed `Price`; the divisions
reproduce the C++ conversion rules (`k / new_supply` is unsigned,
`k / new_ausd` is signed).  `none` marks a division whose C++ counterpart is
undefined behaviour. -/
def AdMM_Pool.getSwapPrice (p : AdMM_Pool) (quantity_in : Nat) (buy_ausd : Bool) :
    Option Int :=
  if p.reserve_ausd = 0 ∨ p.reserve_supply = 0 then some 0
  else
    let k : Int := asI64 (wrap64 p.reserve_ausd * (p.reserve_supply % U64) % U64)
    if buy_ausd then
      let new_supply : Nat := u64add p.reserve_supply quantity_in
      match u64div? (wrap64 k) new_supply with
      | none => none
      | some q => some (p.reserve_ausd - asI64 q)
    else
      let new_ausd : Int := asI64 (u64add (wrap64 p.reserve_ausd) quantity_in)
      if new_ausd = 0 ∨ (k = -(2 ^ 63 : Int) ∧ new_ausd = -1) then none
      else
        let new_supply : Nat := wrap64 (Int.tdiv k new_ausd)
        some (asI64 (u64sub (p.reserve_supply % U64) new_supply))

/-- Fill record: one call of `ADXMatchingEngine::executeFill(bid_id, ask_id,
price, quantity)`, the settlement hook of the engine. -/
structure Fill where
  bid_id : Nat
  ask_id : Nat
  price : Int
  quantity : Nat
deriving DecidableEq

/-- Association-list lookup, modelling `unordered_map::find`. -/
def mfind (m : List (Nat × β)) (k : Nat) : Option β :=
  (m.find? (fun p => p.1 == k)).map (fun p => p.2)

/-- Read through `operator[]`: the stored value, or the value-initialised
default when the key is missing. -/
def mgetD (m : List (Nat × β)) (k : Nat) (d : β) : β :=
  (mfind m k).getD d

/-- Store through `operator[]`: overwrite the binding, appending a fresh
entry when the key is missing. -/
def mset (m : List (Nat × β)) (k : Nat) (v : β) : List (Nat × β) :=
  if (m.find? (fun p => p.1 == k)).isSome then
    m.map (fun p => if p.1 == k then (k, v) else p)
  else m ++ [(k, v)]

theorem mset_length_of_not_mem {β : Type} (m : List (Nat × β)) (k : Nat) (v : β)
    (h : mfind m k = none) : (mset m k v).length = m.length + 1 := by
  unfold mfind at h
  unfold mset
  rcases hf : m.find? (fun p => p.1 == k) with _ | p
  · simp [hf]
  · simp [hf] at h

theorem mfind_mset_self {β : Type} (m : List (Nat × β)) (k : Nat) (v : β)
    (h : mfind m k = none) : mfind (mset m k v) k = some v := by
  unfold mfind at h ⊢
  unfold mset
  rcases hf : m.find? (fun p => p.1 == k) with _ | p
  · rw [hf]
    simp only [Option.isSome_none, Bool.false_eq_true, if_false]
    rw [List.find?_append, hf]
    simp
  · simp [hf] at h

/-- Stable insertion into a `sortBy`-sorted list. -/
def insertSorted (le : α → α → Bool) (x : α) : List α → List α
  | [] => [x]
  | y :: ys => if le x y then x :: y :: ys else y :: insertSorted le x ys

/-- Deterministic stable sort modelling `std::sort`/`thrust::sort` (whose
order on equivalent elements is unspecified). -/
def sortBy (le : α → α → Bool) : List α → List α
  | [] => []
  | x :: xs => insertSorted le x (sortBy le xs)

theorem mem_insertSorted (le : α → α → Bool) (x z : α) (l : List α) :
    z ∈ insertSorted le x l ↔ z = x ∨ z ∈ l := by
  induction l with
  | nil => simp [insertSorted]
  | cons y ys ih =>
    by_cases h : le x y = true
    · simp [insertSorted, h]
    · simp [insertSorted, h, ih]
      tauto

theorem insertSorted_perm (le : α → α → Bool) (x : α) (l : List α) :
    List.Perm (insertSorted le x l) (x :: l) := by
  induction l with
  | nil => simp [insertSorted]
  | cons y ys ih =>
    by_cases h : le x y = true
    · simp [insertSorted, h]
    · simp only [insertSorted, h, if_false]
      exact List.Perm.trans (List.Perm.cons y ih) (List.Perm.swap x y ys)

theorem sortBy_perm (le : α → α → Bool) (l : List α) :
    List.Perm (sortBy le l) l := by
  induction l with
  | nil => simp [sortBy]
  | cons x xs ih =>
    exact List.Perm.trans (insertSorted_perm le x (sortBy le xs)) (List.Perm.cons x ih)

theorem pairwise_insertSorted (le : α → α → Bool)
    (htr : ∀ a b c, le a b = true → le b c = true → le a c = true)
    (hto : ∀ a b, le a b = true ∨ le b a = true)
    (x : α) (l : List α) (h : l.Pairwise (fun a b => le a b = true)) :
    (insertSorted le x l).Pairwise (fun a b => le a b = true) := by
  induction l with
  | nil => simp [insertSorted]
  | cons y ys ih =>
    by_cases hxy : le x y = true
    · simp only [insertSorted, hxy, if_true]
      refine List.Pairwise.cons ?_ h
      intro z hz
      rcases List.mem_cons.mp hz with rfl | hz'
      · exact hxy
      · exact htr x y z hxy (List.rel_of_pairwise_cons h hz')
    · simp only [insertSorted, hxy, if_false]
      refine List.Pairwise.cons ?_ (ih (List.Pairwise.of_cons h))
      intro z hz
      rcases (mem_insertSorted le x z ys).mp hz with hzx | hz'
      · rw [hzx]
        rcases hto x y with hx | hy
        · exact absurd hx hxy
        · exact hy
      · exact List.rel_of_pairwise_cons h hz'

theorem pairwise_sortBy (le : α → α → Bool)
    (htr : ∀ a b c, le a b = true → le b c = true → le a c = true)
    (hto : ∀ a b, le a b = true ∨ le b a = true)
    (l : List α) : (sortBy le l).Pairwise (fun a b => le a b = true) := by
  induction l with
  | nil => simp [sortBy]
  | cons x xs ih => exact pairwise_insertSorted le htr hto x (sortBy le xs) ih

theorem sorted_perm_eq (le : α → α → Bool) (l₁ l₂ : List α)
    (hp : List.Perm l₁ l₂)
    (hs₁ : l₁.Pairwise (fun a b => le a b = true))
    (hs₂ : l₂.Pairwise (fun a b => le a b = true))
    (hd : l₁.Pairwise (fun a b => ¬(le a b = true ∧ le b a = true))) :
    l₁ = l₂ := by
  induction l₁ generalizing l₂ with
  | nil => exact (List.Perm.nil_eq hp).symm ▸ rfl
  | cons x t₁ ih =>
    rcases l₂ with _ | ⟨y, t₂⟩
    · exact absurd hp.symm (by simp)
    · have hxy : x = y := by
        by_contra hne
        have hyx : y ∈ x :: t₁ := hp.symm.subset (List.mem_cons_self y t₂)
        have hy₁ : y ∈ t₁ := by
          rcases List.mem_cons.mp hyx with h | h
          · exact absurd h.symm hne
          · exact h
        have hxy₂ : x ∈ y :: t₂ := hp.subset (List.mem_cons_self x t₁)
        have hx₂ : x ∈ t₂ := by
          rcases List.mem_cons.mp hxy₂ with h | h
          · exact absurd h hne
          · exact h
        have h1 : le x y = true := List.rel_of_pairwise_cons hs₁ hy₁
        have h2 : le y x = true := List.rel_of_pairwise_cons hs₂ hx₂
        exact List.rel_of_pairwise_cons hd hy₁ ⟨h1, h2⟩
      subst hxy
      have ht : List.Perm t₁ t₂ := List.Perm.cons_inv hp
      rw [ih t₂ ht (List.Pairwise.of_cons hs₁) (List.Pairwise.of_cons hs₂)
        (List.Pairwise.of_cons hd)]

theorem sortBy_eq_of_perm (le : α → α → Bool)
    (htr : ∀ a b c, le a b = true → le b c = true → le a c = true)
    (hto : ∀ a b, le a b = true ∨ le b a = true)
    (l₁ l₂ : List α) (hp : List.Perm l₁ l₂)
    (hd : l₁.Pairwise (fun a b => ¬(le a b = true ∧ le b a = true))) :
    sortBy le l₁ = sortBy le l₂ := by
  have hsym : ∀ {a b : α}, ¬(le a b = true ∧ le b a = true) →
      ¬(le b a = true ∧ le a b = true) := by
    intro a b h hc
    exact h ⟨hc.2, hc.1⟩
  have hps : List.Perm (sortBy le l₁) (sortBy le l₂) :=
    ((sortBy_perm le l₁).trans hp).trans (sortBy_perm le l₂).symm
  have hd₁ : (sortBy le l₁).Pairwise (fun a b => ¬(le a b = true ∧ le b a = true)) :=
    ((List.Perm.pairwise_iff hsym (sortBy_perm le l₁)).mpr hd)
  exact sorted_perm_eq le (sortBy le l₁) (sortBy le l₂) hps
    (pairwise_sortBy le htr hto l₁) (pairwise_sortBy le htr hto l₂) hd₁

/-- Matching loop of `ADXMatchingEngine::tryImmedateMatch`: while both books
are non-empty and the best bid crosses the best ask, fill
`min(bid.quantity, ask.quantity)` at the ask (maker) price, record the
`executeFill` call, and erase or decrement the two head orders. -/
def matchLoop : List Order → List Order → List Fill →
    List Order × List Order × List Fill
  | [], asks, fills => ([], asks, fills)
  | bid :: bids, [], fills => (bid :: bids, [], fills)
  | bid :: bids, ask :: asks, fills =>
    if bid.limit_price ≥ ask.limit_price then
      matchLoop
        (if bid.quantity = min bid.quantity ask.quantity then bids
         else { bid with quantity := bid.quantity - min bid.quantity ask.quantity } :: bids)
        (if ask.quantity = min bid.quantity ask.quantity then asks
         else { ask with quantity := ask.quantity - min bid.quantity ask.quantity } :: asks)
        (fills ++ [⟨bid.order_id, ask.order_id, ask.limit_price, min bid.quantity ask.quantity⟩])
    else (bid :: bids, ask :: asks, fills)
termination_by bids asks _ => bids.length + asks.length
decreasing_by
  simp only [List.length_cons]
  split <;> split <;> simp <;> omega

/-- Engine state (`class ADXMatchingEngine`).  GPU buffers and wall-clock
latency metrics are omitted (see the header comment). -/
structure ADXMatchingEngine where
  bid_books : List (Nat × List Order)
  ask_books : List (Nat × List Order)
  ad_slots : List (Nat × AdSlot)
  amm_pools : List (Nat × AdMM_Pool)
  commit_phase_orders : List (Nat × List Order)
  reveal_deadlines : List (Nat × Int)
  total_orders_processed : Nat
  total_matches : Nat
deriving DecidableEq

/-- Immediate matcher (`ADXMatchingEngine::tryImmedateMatch`); also returns
the sequence of `executeFill` calls it makes. -/
def ADXMatchingEngine.tryImmedateMatch (e : ADXMatchingEngine) (slot_id : Nat) :
    ADXMatchingEngine × List Fill :=
  let bids := mgetD e.bid_books slot_id []
  let asks := mgetD e.ask_books slot_id []
  let r := matchLoop bids asks []
  ({ e with
      bid_books := mset e.bid_books slot_id r.1,
      ask_books := mset e.ask_books slot_id r.2.1,
      total_matches := e.total_matches + r.2.2.length }, r.2.2)

/-- Bid-book comparator of `addLimitOrder` (source: `a.limit_price >
b.limit_price`), as the non-strict relation a stable sort maintains. -/
def bidBookLe (a b : Order) : Bool := decide (b.limit_price ≤ a.limit_price)

/-- Ask-book comparator of `addLimitOrder` (source: `a.limit_price <
b.limit_price`). -/
def askBookLe (a b : Order) : Bool := decide (a.limit_price ≤ b.limit_price)

/-- Book insertion (`ADXMatchingEngine::addLimitOrder`): push the order,
re-sort the touched book by price only, bump `total_orders_processed`, and
run the immediate matcher for MARKET orders. -/
def ADXMatchingEngine.addLimitOrder (e : ADXMatchingEngine) (o : Order) :
    Bool × ADXMatchingEngine × List Fill :=
  let e1 :=
    if o.is_buy then
      let book := sortBy bidBookLe (mgetD e.bid_books o.slot_id [] ++ [o])
      { e with bid_books := mset e.bid_books o.slot_id book }
    else
      let book := sortBy askBookLe (mgetD e.ask_books o.slot_id [] ++ [o])
      { e with ask_books := mset e.ask_books o.slot_id book }
  let e2 := { e1 with total_orders_processed := e1.total_orders_processed + 1 }
  if o.type = OrderType.MARKET then
    let r := e2.tryImmedateMatch o.slot_id
    (true, r.1, r.2)
  else (true, e2, [])

/-- Commit-phase append (`ADXMatchingEngine::addCommitRevealOrder`). -/
def ADXMatchingEngine.addCommitRevealOrder (e : ADXMatchingEngine) (o : Order) :
    Bool × ADXMatchingEngine × List Fill :=
  let orders := mgetD e.commit_phase_orders o.slot_id [] ++ [o]
  (true, { e with commit_phase_orders := mset e.commit_phase_orders o.slot_id orders }, [])

/-- AMM swap (`ADXMatchingEngine::executeAMMSwap`).  `amm_pools[slot_id]`
value-initialises a missing pool; the reserve mutations follow the source
verbatim: on a buy the order quantity is added to `reserve_ausd` and the
quoted amount subtracted from `reserve_supply` (wrapping `uint64_t`
subtraction), and conversely on a sell.  `none` models the undefined
division `reserve_ausd / reserve_supply` when the new supply is zero. -/
def ADXMatchingEngine.executeAMMSwap (e : ADXMatchingEngine) (o : Order) :
    Option (Bool × ADXMatchingEngine) :=
  let pool := mgetD e.amm_pools o.slot_id AdMM_Pool.valueInit
  match pool.getSwapPrice o.quantity o.is_buy with
  | none => none
  | some swap_amount =>
    if swap_amount ≤ 0 then
      some (false, { e with amm_pools := mset e.amm_pools o.slot_id pool })
    else
      let pool1 :=
        if o.is_buy then
          { pool with
              reserve_ausd := asI64 (u64add (wrap64 pool.reserve_ausd) o.quantity),
              reserve_supply := u64sub pool.reserve_supply (wrap64 swap_amount) }
        else
          { pool with
              reserve_ausd := pool.reserve_ausd - swap_amount,
              reserve_supply := u64add pool.reserve_supply o.quantity }
      match u64div? (wrap64 pool1.reserve_ausd) pool1.reserve_supply with
      | none => none
      | some q =>
        let pool2 := { pool1 with last_price := asI64 q }
        some (true, { e with amm_pools := mset e.amm_pools o.slot_id pool2 })

/-- Flash-cover stub (`ADXMatchingEngine::executeFlashCover` always returns
`true` and changes nothing). -/
def ADXMatchingEngine.executeFlashCover (e : ADXMatchingEngine) (o : Order) :
    Bool × ADXMatchingEngine × List Fill :=
  (true, e, [])

/-- Order intake and routing (`ADXMatchingEngine::addOrder`): slot lookup,
targeting check, slot-expiry check, then dispatch on the order type. -/
def ADXMatchingEngine.addOrder (e : ADXMatchingEngine) (now : Int) (o : Order) :
    Option (Bool × ADXMatchingEngine × List Fill) :=
  match mfind e.ad_slots o.slot_id with
  | none => some (false, e, [])
  | some slot =>
    if o.targeting_hash ≠ slot.targeting_hash then some (false, e, [])
    else if now > slot.end_time then some (false, e, [])
    else
      match o.type with
      | OrderType.LIMIT => some (e.addLimitOrder o)
      | OrderType.MARKET => some (e.addLimitOrder o)
      | OrderType.COMMIT_REVEAL => some (e.addCommitRevealOrder o)
      | OrderType.AMM_SWAP => (e.executeAMMSwap o).map (fun r => (r.1, r.2, []))
      | OrderType.FLASH_COVER => some (e.executeFlashCover o)

/-- Slot registration (`ADXMatchingEngine::registerAdSlot`). -/
def ADXMatchingEngine.registerAdSlot (e : ADXMatchingEngine) (slot : AdSlot) :
    Bool × ADXMatchingEngine :=
  if (mfind e.ad_slots slot.slot_id).isSome then (false, e)
  else
    (true, { e with
      ad_slots := mset e.ad_slots slot.slot_id slot,
      bid_books := mset e.bid_books slot.slot_id [],
      ask_books := mset e.ask_books slot.slot_id [] })

/-- Commit-phase start (`ADXMatchingEngine::startCommitPhase`). -/
def ADXMatchingEngine.startCommitPhase (e : ADXMatchingEngine) (now : Int)
    (slot_id : Nat) (duration : Int) : Bool × ADXMatchingEngine :=
  (true, { e with
    reveal_deadlines := mset e.reveal_deadlines slot_id (now + duration),
    commit_phase_orders := mset e.commit_phase_orders slot_id [] })

/-- Mutation through the iterator returned by `std::find_if` in `revealBid`:
mark the first order carrying the id as revealed; `none` when absent. -/
def setFirstRevealed (order_id : Nat) (revealed_price : Int) :
    List Order → Option (List Order)
  | [] => none
  | o :: rest =>
    if o.order_id == order_id then
      some ({ o with revealed := true, revealed_price := revealed_price } :: rest)
    else (setFirstRevealed order_id revealed_price rest).map (fun l => o :: l)

/-- Reveal of a sealed bid (`ADXMatchingEngine::revealBid`).  The source
builds `reveal_data = std::to_string(revealed_price) + reveal_nonce` and then
— per its own comment `Hash validation would go here` — never compares it
with the stored `commit_hash`. -/
def ADXMatchingEngine.revealBid (e : ADXMatchingEngine) (now : Int)
    (slot_id order_id : Nat) (revealed_price : Int) (reveal_nonce : String) :
    Bool × ADXMatchingEngine :=
  match mfind e.reveal_deadlines slot_id with
  | none => (false, e)
  | some deadline =>
    if now > deadline then (false, e)
    else
      let orders := mgetD e.commit_phase_orders slot_id []
      let e1 := { e with commit_phase_orders := mset e.commit_phase_orders slot_id orders }
      let reveal_data := toString revealed_price ++ reveal_nonce
      match setFirstRevealed order_id revealed_price orders with
      | none => (false, e1)
      | some orders1 =>
        (true, { e1 with commit_phase_orders := mset e1.commit_phase_orders slot_id orders1 })

/-- Liquidity provision (`ADXMatchingEngine::addLiquidity`); the final
`last_price` division is undefined when both reserves stay zero (`none`). -/
def ADXMatchingEngine.addLiquidity (e : ADXMatchingEngine) (slot_id : Nat)
    (ausd_amount : Int) (slot_amount : Nat) : Option (Bool × ADXMatchingEngine) :=
  let pool := mgetD e.amm_pools slot_id AdMM_Pool.valueInit
  let pool1 := { pool with
    reserve_ausd := pool.reserve_ausd + ausd_amount,
    reserve_supply := u64add pool.reserve_supply slot_amount }
  match u64div? (wrap64 pool1.reserve_ausd) pool1.reserve_supply with
  | none => none
  | some q =>
    let pool2 := { pool1 with last_price := asI64 q }
    some (true, { e with amm_pools := mset e.amm_pools slot_id pool2 })

/-- Observable counters (`ADXMatchingEngine::EngineStats`); the wall-clock
`avg_latency_us` field is omitted. -/
structure EngineStats where
  total_orders : Nat
  total_matches : Nat
  active_slots : Nat
  active_pools : Nat
deriving DecidableEq

/-- Stats snapshot (`ADXMatchingEngine::getStats`). -/
def ADXMatchingEngine.getStats (e : ADXMatchingEngine) : EngineStats :=
  ⟨e.total_orders_processed, e.total_matches, e.ad_slots.length, e.amm_pools.length⟩

/-- Batch-auction bid comparator (`a.priority() > b.priority()`), as the
non-strict relation a stable sort maintains. -/
def bidSortLe (a b : Order) : Bool := decide (b.priority ≤ a.priority)

/-- Batch-auction ask comparator (`a.priority() < b.priority()`). -/
def askSortLe (a b : Order) : Bool := decide (a.priority ≤ b.priority)

/-- Result record (`struct BatchAuctionResult`); the wall-clock
`processing_time` field is omitted. -/
structure BatchAuctionResult where
  «matches» : List (Nat × Nat)
  clearing_prices : List Int
  clearing_quantities : List Nat
  total_matches : Nat
deriving DecidableEq

/-- Pair matching of `ADXMatchingEngine::matchOrdersGPU`: for each sorted bid
in turn, the first sorted ask whose price it crosses and whose targeting hash
matches; one fill per bid. -/
def matchOrdersGPU (bids asks : List Order) : List (Nat × Nat) :=
  bids.filterMap (fun bid =>
    (asks.find? (fun ask =>
        decide (bid.limit_price ≥ ask.limit_price) &&
        (bid.targeting_hash == ask.targeting_hash))).map
      (fun ask => (bid.order_id, ask.order_id)))

/-- Placeholder pricing (`ADXMatchingEngine::calculateClearingPrices`): every
clearing price is `0`. -/
def calculateClearingPrices (ms : List (Nat × Nat)) : List Int :=
  ms.map (fun _ => 0)

/-- Batch auction over the two books of one slot
(`ADXMatchingEngine::runBatchAuction`, scalar content of the GPU path): early
exit when a book is empty, sort bids by descending and asks by ascending
priority, match, price.  The `batch_size_ms` argument is unused in the
source. -/
def runBatchAuctionBooks (bids asks : List Order) : BatchAuctionResult :=
  if bids.isEmpty || asks.isEmpty then ⟨[], [], [], 0⟩
  else
    let sortedBids := sortBy bidSortLe bids
    let sortedAsks := sortBy askSortLe asks
    let ms := matchOrdersGPU sortedBids sortedAsks
    let prices := if ms.isEmpty then [] else calculateClearingPrices ms
    ⟨ms, prices, [], ms.length⟩

/-- Engine entry point for the batch auction: reads the two books through
`operator[]`, delegates to `runBatchAuctionBooks`, and accumulates
`total_matches`. -/
def ADXMatchingEngine.runBatchAuction (e : ADXMatchingEngine) (slot_id : Nat) :
    BatchAuctionResult × ADXMatchingEngine :=
  let bids := mgetD e.bid_books slot_id []
  let asks := mgetD e.ask_books slot_id []
  let e1 := { e with
    bid_books := mset e.bid_books slot_id bids,
    ask_books := mset e.ask_books slot_id asks }
  let r := runBatchAuctionBooks bids asks
  (r, { e1 with total_matches := e1.total_matches + r.total_matches })

theorem tryImmedateMatch_frame (e : ADXMatchingEngine) (s : Nat) :
    (e.tryImmedateMatch s).1.ad_slots = e.ad_slots ∧
    (e.tryImmedateMatch s).1.amm_pools = e.amm_pools ∧
    (e.tryImmedateMatch s).1.commit_phase_orders = e.commit_phase_orders ∧
    (e.tryImmedateMatch s).1.reveal_deadlines = e.reveal_deadlines ∧
    (e.tryImmedateMatch s).1.total_orders_processed = e.total_orders_processed :=
  ⟨rfl, rfl, rfl, rfl, rfl⟩

/-- Fixture: a committed sealed bid whose stored commitment is unrelated to
the data later revealed. -/
def committedOrder : Order :=
  ⟨42, "alice", 1, OrderType.COMMIT_REVEAL, true, 1500, 10, 5, 1000, 7, "deadbeef", false, 0⟩

/-- Fixture: engine whose slot 1 is inside its reveal window (deadline 100)
and holds exactly the committed order above. -/
def revealEngine : ADXMatchingEngine :=
  ⟨[], [], [], [], [(1, [committedOrder])], [(1, 100)], 0, 0⟩

/-- C1: the claim requires `reveal_bid` to fail whenever the recomputed
`hash(revealed_price ‖ nonce)` differs from the stored `commit_hash`.  The
source never performs that comparison (its comment reads `Hash validation
would go here`): at time 50 ≤ deadline 100, revealing order 42 with data
`"1500" ++ "nonce-1"` — which no hash function can reconcile with the stored
commitment, here `"deadbeef"` which differs from the reveal data itself —
succeeds and marks the order revealed. -/
theorem C1_reveal_ignores_commit_hash :
    committedOrder.commit_hash ≠ toString (1500 : Int) ++ "nonce-1" ∧
    (revealEngine.revealBid 50 1 42 1500 "nonce-1").1 = true ∧
    mfind (revealEngine.revealBid 50 1 42 1500 "nonce-1").2.commit_phase_orders 1 =
      some [{ committedOrder with revealed := true, revealed_price := 1500 }] := by
  refine ⟨by decide, by decide, by decide⟩

/-- Fixture: AMM pool with reserves `(reserve_ausd, reserve_supply) = (3, 3)`. -/
def pool3 : AdMM_Pool := ⟨1, 3, 3, 1⟩

/-- Fixture: engine holding `pool3` for slot 1. -/
def swapEngine3 : ADXMatchingEngine := ⟨[], [], [], [(1, pool3)], [], [], 0, 0⟩

/-- Fixture: buy-side AMM swap of quantity 1 against slot 1. -/
def buyOrder3 : Order :=
  ⟨7, "bob", 1, OrderType.AMM_SWAP, true, 0, 1, 0, 1000, 7, "", false, 0⟩

/-- C3: on the pool `(3, 3)` a successful buy swap of quantity 1 moves the
reserves to `(4, 2)`, whose product 8 is strictly below the pre-swap product
9 — the reserve product of a successful swap is not preserved, because
`executeAMMSwap` adds the order quantity (supply units) to `reserve_ausd`
and subtracts the quoted AUSD amount from `reserve_supply`. -/
theorem C3_reserve_product_not_conserved :
    pool3.getSwapPrice 1 true = some 1 ∧
    (swapEngine3.executeAMMSwap buyOrder3).map
        (fun r => (r.1, mfind r.2.amm_pools 1)) =
      some (true, some (⟨1, 4, 2, 2⟩ : AdMM_Pool)) ∧
    (4 : Int) * ((2 : Nat) : Int) < pool3.reserve_ausd * ((pool3.reserve_supply : Nat) : Int) := by
  refine ⟨by decide, by decide, by decide⟩

/-- Fixture: AMM pool with reserves `(2, 1)`. -/
def pool8 : AdMM_Pool := ⟨2, 2, 1, 2⟩

/-- Fixture: engine holding `pool8` for slot 2. -/
def swapEngine8 : ADXMatchingEngine := ⟨[], [], [], [(2, pool8)], [], [], 0, 0⟩

/-- Fixture: buy-side AMM swap of quantity 1 against slot 2. -/
def buyOrder8 : Order :=
  ⟨8, "carol", 2, OrderType.AMM_SWAP, true, 0, 1, 0, 1000, 7, "", false, 0⟩

/-- C8: the claim says a swap that would leave `reserve_supply == 0` fails
with liquidity exhaustion before `last_price` is recomputed.  On the pool
`(2, 1)` the buy swap of quantity 1 is quoted `1 > 0`, the reserve update
leaves `reserve_supply = 0`, and the source immediately evaluates
`reserve_ausd / reserve_supply` — a division by zero (`none` in the model):
no liquidity-exhaustion check exists. -/
theorem C8_last_price_divides_by_zero :
    pool8.getSwapPrice 1 true = some 1 ∧ (0 : Int) < 1 ∧
    swapEngine8.executeAMMSwap buyOrder8 = none := by
  refine ⟨by decide, by decide, by decide⟩

theorem executeAMMSwap_shape (e : ADXMatchingEngine) (o : Order) (b : Bool)
    (e' : ADXMatchingEngine) (h : e.executeAMMSwap o = some (b, e')) :
    ∃ pools, e' = { e with amm_pools := pools } := by
  simp only [ADXMatchingEngine.executeAMMSwap] at h
  repeat' split at h
  all_goals first
    | exact Option.noConfusion h
    | (rcases h with ⟨rfl, rfl⟩; exact ⟨_, rfl⟩)

theorem addLimitOrder_accepts (e : ADXMatchingEngine) (o : Order) :
    (e.addLimitOrder o).1 = true ∧
    (e.addLimitOrder o).2.1.total_orders_processed = e.total_orders_processed + 1 := by
  unfold ADXMatchingEngine.addLimitOrder
  by_cases hb : o.is_buy = true <;> by_cases hm : o.type = OrderType.MARKET <;>
    simp [hb, hm, ADXMatchingEngine.tryImmedateMatch]

/-- Fixture: a registered slot with targeting hash 7, window `[0, 100]`,
capacity 10 and floor 1000. -/
def slotW : AdSlot := ⟨1, "pub", "banner", 7, 0, 100, 10, 0, 1000, 70, true⟩

/-- Fixture: engine holding `slotW` (with empty books) and no AMM pool. -/
def engineW : ADXMatchingEngine :=
  ⟨[(1, [])], [(1, [])], [(1, slotW)], [], [], [], 0, 0⟩

/-- Fixture: AMM swap order against slot 1, which has no pool. -/
def ammOrderW : Order :=
  ⟨9, "dan", 1, OrderType.AMM_SWAP, true, 0, 5, 0, 99, 7, "", false, 0⟩

/-- C9: an AMM_SWAP against a slot without a pool passes pre-routing
validation, fails (the quote on the value-initialised zero reserves is 0),
and nevertheless leaves a fresh zero-reserve pool entry behind, so
`getStats().active_pools` grows by one. -/
theorem C9_failed_swap_inserts_pool (e : ADXMatchingEngine) (now : Int) (o : Order)
    (slot : AdSlot)
    (htype : o.type = OrderType.AMM_SWAP)
    (hslot : mfind e.ad_slots o.slot_id = some slot)
    (htarget : o.targeting_hash = slot.targeting_hash)
    (hnotexp : ¬ now > slot.end_time)
    (hnopool : mfind e.amm_pools o.slot_id = none) :
    e.addOrder now o =
      some (false, { e with amm_pools := mset e.amm_pools o.slot_id AdMM_Pool.valueInit }, []) ∧
    ({ e with amm_pools := mset e.amm_pools o.slot_id AdMM_Pool.valueInit } :
        ADXMatchingEngine).getStats.active_pools = e.getStats.active_pools + 1 ∧
    mfind (mset e.amm_pools o.slot_id AdMM_Pool.valueInit) o.slot_id =
      some AdMM_Pool.valueInit := by
  have hpool : mgetD e.amm_pools o.slot_id AdMM_Pool.valueInit = AdMM_Pool.valueInit := by
    simp [mgetD, hnopool]
  have hquote : AdMM_Pool.valueInit.getSwapPrice o.quantity o.is_buy = some 0 := by
    simp [AdMM_Pool.getSwapPrice, AdMM_Pool.valueInit]
  have hswap : e.executeAMMSwap o =
      some (false, { e with amm_pools := mset e.amm_pools o.slot_id AdMM_Pool.valueInit }) := by
    simp only [ADXMatchingEngine.executeAMMSwap, hpool, hquote]
    norm_num
  refine ⟨?_, ?_, mfind_mset_self _ _ _ hnopool⟩
  · unfold ADXMatchingEngine.addOrder
    simp only [hslot, htype, hswap, Option.map_some']
    rw [if_neg (by simp [htarget]), if_neg hnotexp]
  · simp [ADXMatchingEngine.getStats, mset_length_of_not_mem _ _ _ hnopool]

/-- Witness for C9 on concrete inputs: `engineW` has slot 1 and no pool. -/
theorem C9_failed_swap_inserts_pool_witness :
    engineW.addOrder 50 ammOrderW =
      some (false, { engineW with amm_pools := mset engineW.amm_pools 1 AdMM_Pool.valueInit }, []) ∧
    ({ engineW with amm_pools := mset engineW.amm_pools 1 AdMM_Pool.valueInit } :
        ADXMatchingEngine).getStats.active_pools = engineW.getStats.active_pools + 1 ∧
    mfind (mset engineW.amm_pools 1 AdMM_Pool.valueInit) 1 = some AdMM_Pool.valueInit :=
  C9_failed_swap_inserts_pool engineW 50 ammOrderW slotW rfl (by decide) rfl (by decide) rfl

/-- C10: `total_orders_processed` (surfaced as `getStats().total_orders`) is
bumped exactly by accepted LIMIT/MARKET orders; COMMIT_REVEAL, AMM_SWAP and
FLASH_COVER submissions — accepted or not — leave it unchanged. -/
theorem C10_total_orders_counts_only_book_orders (e : ADXMatchingEngine) (now : Int)
    (o : Order) (b : Bool) (e' : ADXMatchingEngine) (fills : List Fill)
    (h : e.addOrder now o = some (b, e', fills)) :
    e'.getStats.total_orders =
      e.getStats.total_orders +
        (if b = true ∧ (o.type = OrderType.LIMIT ∨ o.type = OrderType.MARKET)
         then 1 else 0) := by
  unfold ADXMatchingEngine.addOrder at h
  rcases hs : mfind e.ad_slots o.slot_id with _ | slot
  · simp only [hs, Option.some.injEq, Prod.mk.injEq] at h
    rcases h with ⟨rfl, rfl, rfl⟩
    simp [ADXMatchingEngine.getStats]
  · simp only [hs] at h
    by_cases ht : o.targeting_hash ≠ slot.targeting_hash
    · rw [if_pos ht] at h
      simp only [Option.some.injEq, Prod.mk.injEq] at h
      rcases h with ⟨rfl, rfl, rfl⟩
      simp [ADXMatchingEngine.getStats]
    · rw [if_neg ht] at h
      by_cases hexp : now > slot.end_time
      · rw [if_pos hexp] at h
        simp only [Option.some.injEq, Prod.mk.injEq] at h
        rcases h with ⟨rfl, rfl, rfl⟩
        simp [ADXMatchingEngine.getStats]
      · rw [if_neg hexp] at h
        rcases hty : o.type
        all_goals rw [hty] at h
        · -- LIMIT
          simp only [Option.some.injEq] at h
          have hacc := addLimitOrder_accepts e o
          have hb : b = (e.addLimitOrder o).1 := by rw [h]
          have he : e' = (e.addLimitOrder o).2.1 := by rw [h]
          simp [ADXMatchingEngine.getStats, he, hb, hacc.1, hacc.2, hty]
        · -- MARKET
          simp only [Option.some.injEq] at h
          have hacc := addLimitOrder_accepts e o
          have hb : b = (e.addLimitOrder o).1 := by rw [h]
          have he : e' = (e.addLimitOrder o).2.1 := by rw [h]
          simp [ADXMatchingEngine.getStats, he, hb, hacc.1, hacc.2, hty]
        · -- COMMIT_REVEAL
          simp only [ADXMatchingEngine.addCommitRevealOrder, Option.some.injEq,
            Prod.mk.injEq] at h
          rcases h with ⟨rfl, rfl, rfl⟩
          simp [ADXMatchingEngine.getStats, hty]
        · -- AMM_SWAP
          rcases ha : e.executeAMMSwap o with _ | r
          · rw [ha] at h
            simp at h
          · rw [ha] at h
            simp only [Option.map_some', Option.some.injEq, Prod.mk.injEq] at h
            rcases h with ⟨rfl, rfl, rfl⟩
            obtain ⟨pools, hsh⟩ :=
              executeAMMSwap_shape e o r.1 r.2 (by rw [ha])
            simp [ADXMatchingEngine.getStats, hsh, hty]
        · -- FLASH_COVER
          simp only [ADXMatchingEngine.executeFlashCover, Option.some.injEq,
            Prod.mk.injEq] at h
          rcases h with ⟨rfl, rfl, rfl⟩
          simp [ADXMatchingEngine.getStats, hty]

/-- Fixture: sealed order routed through the commit arena of slot 1. -/
def commitOrderW : Order :=
  ⟨12, "fred", 1, OrderType.COMMIT_REVEAL, true, 1300, 4, 3, 999, 7, "c0ffee", false, 0⟩

/-- Fixture: `engineW` after its commit arena accepted `commitOrderW`. -/
def engineWC : ADXMatchingEngine :=
  ⟨[(1, [])], [(1, [])], [(1, slotW)], [], [(1, [commitOrderW])], [], 0, 0⟩

/-- Witness for C10 on concrete inputs: the accepted COMMIT_REVEAL submission
taking `engineW` to `engineWC` leaves `total_orders` unchanged. -/
theorem C10_total_orders_counts_only_book_orders_witness :
    engineWC.getStats.total_orders =
      engineW.getStats.total_orders +
        (if true = true ∧ (commitOrderW.type = OrderType.LIMIT ∨
            commitOrderW.type = OrderType.MARKET) then 1 else 0) :=
  C10_total_orders_counts_only_book_orders engineW 50 commitOrderW true engineWC []
    (by decide)

/-- Fixture: LIMIT bid with `quantity = 0` and `expires = 10` (in the past
for `now = 50`), otherwise valid for `slotW`. -/
def zeroQtyOrder : Order :=
  ⟨11, "eve", 1, OrderType.LIMIT, true, 1200, 0, 20, 10, 7, "", false, 0⟩

/-- C6 counterexample: the claim demands rejection of orders with
`quantity == 0` (QuantityZero) or `expires < now` (OrderExpired).  The order
below has both defects, yet `addOrder` accepts it at `now = 50`: the source
validates only slot existence, targeting and slot expiry. -/
theorem C6_counterexample :
    zeroQtyOrder.quantity = 0 ∧ zeroQtyOrder.expires < 50 ∧
    (engineW.addOrder 50 zeroQtyOrder).map (fun r => r.1) = some true := by
  refine ⟨by decide, by decide, by decide⟩

/-- C6 amended: whenever `addOrder` accepts a submission — of any order
type — the slot exists, the targeting hashes agree, and the slot itself has
not expired (`now ≤ end_time`).  The order quantity and the order expiry are
not checked (so the defective order above is accepted), and failures are a
plain boolean `false`, not a typed rejection; an AMM_SWAP passing these
checks can still fail in the pool step. -/
theorem C6_validation_checks (e : ADXMatchingEngine) (now : Int) (o : Order)
    (b : Bool) (e' : ADXMatchingEngine) (fills : List Fill)
    (h : e.addOrder now o = some (b, e', fills)) (hacc : b = true) :
    ∃ slot, mfind e.ad_slots o.slot_id = some slot ∧
      o.targeting_hash = slot.targeting_hash ∧ now ≤ slot.end_time := by
  unfold ADXMatchingEngine.addOrder at h
  rcases hs : mfind e.ad_slots o.slot_id with _ | slot
  · simp only [hs, Option.some.injEq, Prod.mk.injEq] at h
    rcases h with ⟨rfl, -, -⟩
    exact absurd hacc (by decide)
  · simp only [hs] at h
    by_cases ht : o.targeting_hash ≠ slot.targeting_hash
    · rw [if_pos ht] at h
      simp only [Option.some.injEq, Prod.mk.injEq] at h
      rcases h with ⟨rfl, -, -⟩
      exact absurd hacc (by decide)
    · rw [if_neg ht] at h
      by_cases hexp : now > slot.end_time
      · rw [if_pos hexp] at h
        simp only [Option.some.injEq, Prod.mk.injEq] at h
        rcases h with ⟨rfl, -, -⟩
        exact absurd hacc (by decide)
      · exact ⟨slot, rfl, not_not.mp ht, not_lt.mp hexp⟩

/-- Witness for C6 on concrete inputs: `engineW` accepts the quantity-zero,
already-expired `zeroQtyOrder`, and indeed slot 1 exists, targets hash 7 and
has not expired at `now = 50`. -/
theorem C6_validation_checks_witness :
    ∃ slot, mfind engineW.ad_slots zeroQtyOrder.slot_id = some slot ∧
      zeroQtyOrder.targeting_hash = slot.targeting_hash ∧ (50 : Int) ≤ slot.end_time :=
  C6_validation_checks engineW 50 zeroQtyOrder true
    (⟨[(1, [zeroQtyOrder])], [(1, [])], [(1, slotW)], [], [], [], 1, 0⟩ :
      ADXMatchingEngine)
    [] (by decide) rfl

/-- Fixture: slot 3 with `max_impressions = 5` and `delivered = 0`. -/
def slotM : AdSlot := ⟨3, "pub", "ctv", 7, 0, 100, 5, 0, 1000, 70, true⟩

/-- Fixture: resting bid of quantity 10 at price 100 for slot 3. -/
def bidM : Order := ⟨21, "gail", 3, OrderType.LIMIT, true, 100, 10, 1, 500, 7, "", false, 0⟩

/-- Fixture: resting ask of quantity 10 at price 90 for slot 3. -/
def askM : Order := ⟨22, "hank", 3, OrderType.LIMIT, false, 90, 10, 2, 500, 7, "", false, 0⟩

/-- Fixture: engine holding the crossed book above for slot 3. -/
def engineM : ADXMatchingEngine :=
  ⟨[(3, [bidM])], [(3, [askM])], [(3, slotM)], [], [], [], 2, 0⟩

/-- C2: the claim requires every emitted fill to increment the slot's
`delivered` (truncated to remaining capacity).  The source's `executeFill`
is an empty stub: the immediate matcher never touches `ad_slots` at all
(first conjunct), and on the concrete crossed book it emits a single fill of
quantity 10 against a slot with only 5 of 5 impressions remaining, leaving
`delivered = 0` and performing no truncation. -/
theorem C2_fills_never_update_delivered :
    (∀ (e : ADXMatchingEngine) (s : Nat), (e.tryImmedateMatch s).1.ad_slots = e.ad_slots) ∧
    (engineM.tryImmedateMatch 3).2 = [⟨21, 22, 90, 10⟩] ∧
    mfind (engineM.tryImmedateMatch 3).1.ad_slots 3 = some slotM ∧
    slotM.delivered = 0 ∧ slotM.max_impressions = 5 ∧ slotM.remainingSupply < 10 := by
  have hml : matchLoop [bidM] [askM] [] = ([], [], [⟨21, 22, 90, 10⟩]) := by
    rw [matchLoop]
    norm_num [bidM, askM]
    rw [matchLoop]
  refine ⟨fun e s => rfl, ?_, ?_, rfl, rfl, by decide⟩
  · show (matchLoop (mgetD engineM.bid_books 3 []) (mgetD engineM.ask_books 3 []) []).2.2 = _
    norm_num [engineM, mgetD, mfind, hml]
  · show mfind (ADXMatchingEngine.mk _ _ _ _ _ _ _ _).ad_slots 3 = some slotM
    decide

/-- Fixture: slot with an odd floor CPM of 1001 and window `[0, 10]`. -/
def slotOddFloor : AdSlot := ⟨4, "pub", "banner", 7, 0, 10, 5, 0, 1001, 70, true⟩

/-- C4 counterexample: the claim asserts the price at `start_time` is exactly
`1.5 * floor_cpm`.  With the odd floor 1001 the integer formula yields
`1001 + 1001/2 = 1501`, and `2 * 1501 ≠ 3 * 1001`, so the price is not
exactly one-and-a-half times the floor. -/
theorem C4_counterexample :
    slotOddFloor.getCurrentPrice slotOddFloor.start_time = 1501 ∧
    2 * slotOddFloor.getCurrentPrice slotOddFloor.start_time ≠ 3 * slotOddFloor.floor_cpm := by
  refine ⟨by decide, by decide⟩

/-- C4 amended: with a non-negative floor, the decay price is 0 after
`end_time` or when inactive, `floor_cpm` before `start_time`, monotonically
non-increasing across the active window, exactly
`floor_cpm + floor_cpm / 2` at `start_time` (which is `1.5 · floor_cpm` only
for even floors), and exactly `floor_cpm` at `end_time`. -/
theorem C4_time_decay (s : AdSlot) (hact : s.active = true) (hfl : 0 ≤ s.floor_cpm)
    (hse : s.start_time ≤ s.end_time) :
    (∀ t, s.end_time < t → s.getCurrentPrice t = 0) ∧
    (∀ (s' : AdSlot) (t : Int), s'.active = false → s'.getCurrentPrice t = 0) ∧
    (∀ t, t < s.start_time → s.getCurrentPrice t = s.floor_cpm) ∧
    (∀ t1 t2, s.start_time ≤ t1 → t1 ≤ t2 → t2 ≤ s.end_time →
      s.getCurrentPrice t2 ≤ s.getCurrentPrice t1) ∧
    (s.start_time < s.end_time →
      s.getCurrentPrice s.start_time = s.floor_cpm + Int.tdiv s.floor_cpm 2) ∧
    s.getCurrentPrice s.end_time = s.floor_cpm := by
  refine ⟨?_, ?_, ?_, ?_, ?_, ?_⟩
  · intro t ht
    unfold AdSlot.getCurrentPrice
    rw [if_pos (Or.inl ht)]
  · intro s' t hinact
    unfold AdSlot.getCurrentPrice
    rw [if_pos (Or.inr hinact)]
  · intro t ht
    unfold AdSlot.getCurrentPrice
    have hcond : ¬ (t > s.end_time ∨ s.active = false) := by
      rw [hact]
      simp only [Bool.true_eq_false, or_false]
      omega
    rw [if_neg hcond, if_pos ht]
  · intro t1 t2 h1 h12 h2
    unfold AdSlot.getCurrentPrice
    have hc1 : ¬ (t1 > s.end_time ∨ s.active = false) := by
      rw [hact]
      simp only [Bool.true_eq_false, or_false]
      omega
    have hc2 : ¬ (t2 > s.end_time ∨ s.active = false) := by
      rw [hact]
      simp only [Bool.true_eq_false, or_false]
      omega
    have hn1 : ¬ (t1 < s.start_time) := by omega
    have hn2 : ¬ (t2 < s.start_time) := by omega
    rw [if_neg hc1, if_neg hn1, if_neg hc2, if_neg hn2]
    by_cases hw : s.end_time - s.start_time ≤ 0
    · rw [if_pos hw, if_pos hw]
    · rw [if_neg hw, if_neg hw]
      dsimp only
      have hwpos : (0 : Int) < s.end_time - s.start_time := by omega
      have hp : 0 ≤ Int.tdiv s.floor_cpm 2 := Int.tdiv_nonneg hfl (by norm_num)
      have hr2 : (0 : Int) ≤ Int.tdiv s.floor_cpm 2 * (s.end_time - t2) :=
        mul_nonneg hp (by omega)
      have hr1 : (0 : Int) ≤ Int.tdiv s.floor_cpm 2 * (s.end_time - t1) :=
        mul_nonneg hp (by omega)
      rw [Int.tdiv_eq_ediv hr2 (le_of_lt hwpos), Int.tdiv_eq_ediv hr1 (le_of_lt hwpos)]
      exact add_le_add_left
        (Int.ediv_le_ediv hwpos (mul_le_mul_of_nonneg_left (by omega) hp)) _
  · intro hlt
    unfold AdSlot.getCurrentPrice
    have hc : ¬ (s.start_time > s.end_time ∨ s.active = false) := by
      rw [hact]
      simp only [Bool.true_eq_false, or_false]
      omega
    rw [if_neg hc, if_neg (lt_irrefl s.start_time), if_neg (by omega)]
    dsimp only
    rw [Int.mul_tdiv_cancel _ (by omega)]
  · unfold AdSlot.getCurrentPrice
    have hc : ¬ (s.end_time > s.end_time ∨ s.active = false) := by
      rw [hact]
      simp only [Bool.true_eq_false, or_false]
      omega
    rw [if_neg hc, if_neg (by omega)]
    by_cases hw : s.end_time - s.start_time ≤ 0
    · rw [if_pos hw]
    · rw [if_neg hw, sub_self]
      dsimp only
      rw [mul_zero, Int.zero_tdiv, add_zero]

/-- Witness for C4 on `slotW` (active, floor 1000, window `[0, 100]`). -/
theorem C4_time_decay_witness :
    slotW.getCurrentPrice slotW.end_time = slotW.floor_cpm ∧
    (slotW.start_time < slotW.end_time →
      slotW.getCurrentPrice slotW.start_time = slotW.floor_cpm + Int.tdiv slotW.floor_cpm 2) :=
  ⟨(C4_time_decay slotW rfl (by decide) (by decide)).2.2.2.2.2,
   (C4_time_decay slotW rfl (by decide) (by decide)).2.2.2.2.1⟩


/-- Price-sortedness that the source actually maintains: every bid book
non-increasing and every ask book non-decreasing in `limit_price` alone. -/
def booksPriceSorted (e : ADXMatchingEngine) : Prop :=
  (∀ p ∈ e.bid_books, List.Pairwise (fun a b : Order => b.limit_price ≤ a.limit_price) p.2) ∧
  (∀ p ∈ e.ask_books, List.Pairwise (fun a b : Order => a.limit_price ≤ b.limit_price) p.2)

theorem mset_forall {β : Type} (P : β → Prop) (m : List (Nat × β)) (k : Nat) (v : β)
    (hm : ∀ p ∈ m, P p.2) (hv : P v) : ∀ p ∈ mset m k v, P p.2 := by
  intro p hp
  unfold mset at hp
  split at hp
  · rcases List.mem_map.mp hp with ⟨q, hq, heq⟩
    by_cases hqk : (q.1 == k) = true
    · rw [if_pos hqk] at heq
      rw [← heq]
      exact hv
    · rw [if_neg hqk] at heq
      rw [← heq]
      exact hm q hq
  · rcases List.mem_append.mp hp with hq | hq
    · exact hm p hq
    · rcases List.mem_singleton.mp hq with rfl
      exact hv

theorem mgetD_prop {β : Type} (P : β → Prop) (m : List (Nat × β)) (k : Nat) (d : β)
    (hm : ∀ p ∈ m, P p.2) (hd : P d) : P (mgetD m k d) := by
  unfold mgetD mfind
  rcases hf : m.find? (fun p => p.1 == k) with _ | q
  · rw [hf]
    simpa using hd
  · rw [hf]
    simpa using hm q (List.mem_of_find?_eq_some hf)

theorem sortBy_bid_sorted (l : List Order) :
    (sortBy bidBookLe l).Pairwise (fun a b : Order => b.limit_price ≤ a.limit_price) := by
  have h := pairwise_sortBy bidBookLe
    (fun a b c hab hbc => by
      simp only [bidBookLe, decide_eq_true_eq] at *
      omega)
    (fun a b => by
      simp only [bidBookLe, decide_eq_true_eq]
      omega)
    l
  exact h.imp (fun hab => by simpa [bidBookLe, decide_eq_true_eq] using hab)

theorem sortBy_ask_sorted (l : List Order) :
    (sortBy askBookLe l).Pairwise (fun a b : Order => a.limit_price ≤ b.limit_price) := by
  have h := pairwise_sortBy askBookLe
    (fun a b c hab hbc => by
      simp only [askBookLe, decide_eq_true_eq] at *
      omega)
    (fun a b => by
      simp only [askBookLe, decide_eq_true_eq]
      omega)
    l
  exact h.imp (fun hab => by simpa [askBookLe, decide_eq_true_eq] using hab)

theorem matchLoop_pairwise (bids asks : List Order) (fills : List Fill) :
    bids.Pairwise (fun a b : Order => b.limit_price ≤ a.limit_price) →
    asks.Pairwise (fun a b : Order => a.limit_price ≤ b.limit_price) →
    (matchLoop bids asks fills).1.Pairwise (fun a b : Order => b.limit_price ≤ a.limit_price) ∧
    (matchLoop bids asks fills).2.1.Pairwise (fun a b : Order => a.limit_price ≤ b.limit_price) := by
  induction bids, asks, fills using matchLoop.induct
  case case3 bid bids ask asks fills hcond ih =>
    intro hb ha
    rw [matchLoop, if_pos hcond]
    apply ih
    · split
      · exact hb.of_cons
      · refine List.Pairwise.cons ?_ hb.of_cons
        intro y hy
        exact List.rel_of_pairwise_cons hb hy
    · split
      · exact ha.of_cons
      · refine List.Pairwise.cons ?_ ha.of_cons
        intro y hy
        exact List.rel_of_pairwise_cons ha hy
  case case1 =>
    intro hb ha
    rw [matchLoop]
    exact ⟨List.Pairwise.nil, ha⟩
  case case2 =>
    intro hb ha
    rw [matchLoop]
    exact ⟨hb, List.Pairwise.nil⟩
  case case4 bid bids ask asks fills hcond =>
    intro hb ha
    rw [matchLoop, if_neg hcond]
    exact ⟨hb, ha⟩

theorem tryImmedateMatch_sorted (e : ADXMatchingEngine) (s : Nat)
    (hinv : booksPriceSorted e) : booksPriceSorted (e.tryImmedateMatch s).1 := by
  have hbids : (mgetD e.bid_books s []).Pairwise
      (fun a b : Order => b.limit_price ≤ a.limit_price) :=
    mgetD_prop _ e.bid_books s [] hinv.1 List.Pairwise.nil
  have hasks : (mgetD e.ask_books s []).Pairwise
      (fun a b : Order => a.limit_price ≤ b.limit_price) :=
    mgetD_prop _ e.ask_books s [] hinv.2 List.Pairwise.nil
  have hml := matchLoop_pairwise (mgetD e.bid_books s []) (mgetD e.ask_books s []) []
    hbids hasks
  exact ⟨mset_forall _ _ _ _ hinv.1 hml.1, mset_forall _ _ _ _ hinv.2 hml.2⟩

theorem addLimitOrder_sorted (e : ADXMatchingEngine) (o : Order)
    (hinv : booksPriceSorted e) : booksPriceSorted (e.addLimitOrder o).2.1 := by
  by_cases hbuy : o.is_buy = true <;> by_cases hm : o.type = OrderType.MARKET <;>
    simp only [ADXMatchingEngine.addLimitOrder, hbuy, hm, if_true, if_false,
      Bool.false_eq_true] <;>
    first
      | exact tryImmedateMatch_sorted _ _
          ⟨mset_forall _ _ _ _ hinv.1 (sortBy_bid_sorted _), hinv.2⟩
      | exact tryImmedateMatch_sorted _ _
          ⟨hinv.1, mset_forall _ _ _ _ hinv.2 (sortBy_ask_sorted _)⟩
      | exact ⟨mset_forall _ _ _ _ hinv.1 (sortBy_bid_sorted _), hinv.2⟩
      | exact ⟨hinv.1, mset_forall _ _ _ _ hinv.2 (sortBy_ask_sorted _)⟩

/-- Fixture: resting bid at price 100 created at time 10. -/
def ordX : Order := ⟨31, "ivy", 1, OrderType.LIMIT, true, 100, 3, 10, 500, 7, "", false, 0⟩

/-- Fixture: bid at the same price 100 but created earlier, at time 5. -/
def ordY : Order := ⟨32, "joe", 1, OrderType.LIMIT, true, 100, 3, 5, 500, 7, "", false, 0⟩

/-- Fixture: engine whose slot-1 bid book already holds `ordX`. -/
def engineX : ADXMatchingEngine :=
  ⟨[(1, [ordX])], [(1, [])], [(1, slotW)], [], [], [], 1, 0⟩

/-- C7 counterexample: the claim demands bid books sorted by
`(-limit_price, created)` (FIFO within a price level).  Inserting `ordY`
(price 100, created 5) after `ordX` (price 100, created 10) leaves the book
`[ordX, ordY]`: the source sorts by price alone, so the earlier-created
order sits behind the later one. -/
theorem C7_counterexample :
    (engineX.addOrder 50 ordY).map (fun r => mgetD r.2.1.bid_books 1 []) =
      some [ordX, ordY] ∧
    ordX.limit_price = ordY.limit_price ∧ ordY.created < ordX.created ∧
    ¬ List.Pairwise (fun a b : Order => b.limit_price < a.limit_price ∨
        (a.limit_price = b.limit_price ∧ a.created ≤ b.created)) [ordX, ordY] := by
  refine ⟨by decide, by decide, by decide, by decide⟩

/-- C7 amended: after any `addOrder` mutation the bid books stay sorted by
non-increasing `limit_price` and the ask books by non-decreasing
`limit_price`; ties within one price level keep insertion order rather than
`created` order. -/
theorem C7_books_sorted_by_price (e : ADXMatchingEngine) (now : Int) (o : Order)
    (b : Bool) (e' : ADXMatchingEngine) (fills : List Fill)
    (hinv : booksPriceSorted e) (h : e.addOrder now o = some (b, e', fills)) :
    booksPriceSorted e' := by
  unfold ADXMatchingEngine.addOrder at h
  rcases hs : mfind e.ad_slots o.slot_id with _ | slot
  · simp only [hs, Option.some.injEq, Prod.mk.injEq] at h
    rcases h with ⟨rfl, rfl, rfl⟩
    exact hinv
  · simp only [hs] at h
    by_cases ht : o.targeting_hash ≠ slot.targeting_hash
    · rw [if_pos ht] at h
      simp only [Option.some.injEq, Prod.mk.injEq] at h
      rcases h with ⟨rfl, rfl, rfl⟩
      exact hinv
    · rw [if_neg ht] at h
      by_cases hexp : now > slot.end_time
      · rw [if_pos hexp] at h
        simp only [Option.some.injEq, Prod.mk.injEq] at h
        rcases h with ⟨rfl, rfl, rfl⟩
        exact hinv
      · rw [if_neg hexp] at h
        rcases hty : o.type
        all_goals rw [hty] at h
        · simp only [Option.some.injEq] at h
          have he : e' = (e.addLimitOrder o).2.1 := by rw [h]
          rw [he]
          exact addLimitOrder_sorted e o hinv
        · simp only [Option.some.injEq] at h
          have he : e' = (e.addLimitOrder o).2.1 := by rw [h]
          rw [he]
          exact addLimitOrder_sorted e o hinv
        · simp only [ADXMatchingEngine.addCommitRevealOrder, Option.some.injEq,
            Prod.mk.injEq] at h
          rcases h with ⟨rfl, rfl, rfl⟩
          exact hinv
        · rcases ha : e.executeAMMSwap o with _ | r
          · rw [ha] at h
            simp at h
          · rw [ha] at h
            simp only [Option.map_some', Option.some.injEq, Prod.mk.injEq] at h
            rcases h with ⟨rfl, rfl, rfl⟩
            obtain ⟨pools, hsh⟩ := executeAMMSwap_shape e o r.1 r.2 (by rw [ha])
            rw [hsh]
            exact hinv
        · simp only [ADXMatchingEngine.executeFlashCover, Option.some.injEq,
            Prod.mk.injEq] at h
          rcases h with ⟨rfl, rfl, rfl⟩
          exact hinv

/-- Witness for C7 on concrete inputs: inserting `ordY` into `engineX`
yields price-sorted books. -/
theorem C7_books_sorted_by_price_witness :
    booksPriceSorted
      (⟨[(1, [ordX, ordY])], [(1, [])], [(1, slotW)], [], [], [], 2, 0⟩ :
        ADXMatchingEngine) :=
  C7_books_sorted_by_price engineX 50 ordY true
    (⟨[(1, [ordX, ordY])], [(1, [])], [(1, slotW)], [], [], [], 2, 0⟩ : ADXMatchingEngine)
    [] (by constructor <;> decide) (by decide)

/-- Fixture: batch bid at price 10, created 0. -/
def batchBid : Order := ⟨43, "kim", 5, OrderType.LIMIT, true, 10, 1, 0, 500, 7, "", false, 0⟩

/-- Fixture: batch ask at price 10, created 0 (priority ties `batchAskB`). -/
def batchAskA : Order := ⟨41, "lou", 5, OrderType.LIMIT, false, 10, 1, 0, 500, 7, "", false, 0⟩

/-- Fixture: batch ask identical to `batchAskA` except for its id. -/
def batchAskB : Order := ⟨44, "moe", 5, OrderType.LIMIT, false, 10, 1, 0, 500, 7, "", false, 0⟩

/-- C5 counterexample: the claim promises identical `BatchAuctionResult` for
every permutation of the same multiset of resting orders.  The two asks
share one priority key (same price, same creation tick), so the sort leaves
them in arrival order and the single bid is paired with whichever ask
arrived first: the two arrival orders produce different match lists
(`(43, 41)` versus `(43, 44)`). -/
theorem C5_counterexample :
    List.Perm [batchAskA, batchAskB] [batchAskB, batchAskA] ∧
    batchAskA.priority = batchAskB.priority ∧
    runBatchAuctionBooks [batchBid] [batchAskA, batchAskB] ≠
      runBatchAuctionBooks [batchBid] [batchAskB, batchAskA] := by
  refine ⟨by decide, by decide, by decide⟩

/-- C5 amended: when no two bids and no two asks share a `priority()` key,
the batch auction result is invariant under permuting the submission order
of the resting orders. -/
theorem C5_batch_auction_order_invariance (bids1 bids2 asks1 asks2 : List Order)
    (hbp : List.Perm bids1 bids2) (hap : List.Perm asks1 asks2)
    (hbd : bids1.Pairwise (fun a b : Order => a.priority ≠ b.priority))
    (had : asks1.Pairwise (fun a b : Order => a.priority ≠ b.priority)) :
    runBatchAuctionBooks bids1 asks1 = runBatchAuctionBooks bids2 asks2 := by
  have hbids : sortBy bidSortLe bids1 = sortBy bidSortLe bids2 := by
    refine sortBy_eq_of_perm bidSortLe ?_ ?_ bids1 bids2 hbp
      (hbd.imp (fun hne hc => ?_))
    · intro a b c hab hbc
      simp only [bidSortLe, decide_eq_true_eq] at *
      omega
    · intro a b
      simp only [bidSortLe, decide_eq_true_eq]
      omega
    · simp only [bidSortLe, decide_eq_true_eq] at hc
      exact hne (Nat.le_antisymm hc.2 hc.1)
  have hasks : sortBy askSortLe asks1 = sortBy askSortLe asks2 := by
    refine sortBy_eq_of_perm askSortLe ?_ ?_ asks1 asks2 hap
      (had.imp (fun hne hc => ?_))
    · intro a b c hab hbc
      simp only [askSortLe, decide_eq_true_eq] at *
      omega
    · intro a b
      simp only [askSortLe, decide_eq_true_eq]
      omega
    · simp only [askSortLe, decide_eq_true_eq] at hc
      exact hne (Nat.le_antisymm hc.1 hc.2)
  have hbe : bids1.isEmpty = bids2.isEmpty := by
    have := hbp.length_eq
    rcases bids1 <;> rcases bids2 <;> simp_all
  have hae : asks1.isEmpty = asks2.isEmpty := by
    have := hap.length_eq
    rcases asks1 <;> rcases asks2 <;> simp_all
  unfold runBatchAuctionBooks
  rw [hbe, hae, hbids, hasks]

/-- Fixture batch books with pairwise-distinct priorities. -/
def wBid1 : Order := ⟨51, "nan", 5, OrderType.LIMIT, true, 20, 1, 0, 500, 7, "", false, 0⟩

/-- Fixture: second bid, distinct priority. -/
def wBid2 : Order := ⟨52, "oli", 5, OrderType.LIMIT, true, 30, 1, 1, 500, 7, "", false, 0⟩

/-- Fixture: first ask, distinct priority. -/
def wAsk1 : Order := ⟨53, "pam", 5, OrderType.LIMIT, false, 10, 1, 2, 500, 7, "", false, 0⟩

/-- Fixture: second ask, distinct priority. -/
def wAsk2 : Order := ⟨54, "quin", 5, OrderType.LIMIT, false, 40, 1, 3, 500, 7, "", false, 0⟩

/-- Witness for C5 on concrete inputs: with all priorities distinct, the two
arrival orders clear identically. -/
theorem C5_batch_auction_order_invariance_witness :
    runBatchAuctionBooks [wBid1, wBid2] [wAsk1, wAsk2] =
      runBatchAuctionBooks [wBid2, wBid1] [wAsk2, wAsk1] :=
  C5_batch_auction_order_invariance [wBid1, wBid2] [wBid2, wBid1] [wAsk1, wAsk2]
    [wAsk2, wAsk1] (by decide) (by decide) (by decide) (by decide)
